import Mathlib

/-! ClickMate native hotkey subsystem.

A shallow embedding of `src/native/src/mouse_controller.cpp` (the hotkey part:
`HotkeyWndProc`, `initHotkeySystem`, `cleanupHotkeySystem`, `registerHotkey`,
`unregisterHotkey`, `checkHotkeyPressed`).

The four file-level globals of the translation unit become fields of `State`.
The Win32 side that the code talks to is kept as small as the code needs it:
the hot-key bindings of the receiver window, the receiver's queue of posted
messages, and a log of the Win32 calls the code has issued.  The results of
Win32 calls that the code branches on (`RegisterClassExW`, `GetLastError`,
`CreateWindowExW`, `RegisterHotKey`) are arguments of the embedded functions.
-/

namespace ClickMate

/-! ## Constants of `<windows.h>` used by the source -/

/-- Message number of `WM_HOTKEY` in `<windows.h>`. -/
def WM_HOTKEY : Nat := 0x0312

/-- Error code `ERROR_CLASS_ALREADY_EXISTS` in `<winerror.h>`. -/
def ERROR_CLASS_ALREADY_EXISTS : Nat := 1410

/-- Value of `MOD_CONTROL | MOD_SHIFT | MOD_NOREPEAT` (0x0002, 0x0004, 0x4000). -/
def HOTKEY_MODIFIERS : Nat := 0x4006

/-- The C conversion `static_cast<int>(wParam)`: keep the low 32 bits and read
them as a two's complement number. -/
def castInt (w : Nat) : Int :=
  if w % 2 ^ 32 < 2 ^ 31 then (w % 2 ^ 32 : Nat) else ((w % 2 ^ 32 : Nat) : Int) - 2 ^ 32

/-! ## `std::map<int, bool>` -/

/-- The value of a `std::map<int, bool>`: its entries, in key order. -/
abbrev HotkeyMap := List (Int × Bool)

namespace HotkeyMap

/-- The lookup `m.find(id)`: `none` stands for `m.end()`. -/
def find (id : Int) : HotkeyMap → Option Bool
  | [] => none
  | (k, v) :: t => if id = k then some v else find id t

/-- The assignment `m[id] = v`: overwrites the entry of `id`, or inserts one
at its place in key order when there is none. -/
def assign (id : Int) (v : Bool) : HotkeyMap → HotkeyMap
  | [] => [(id, v)]
  | (k, w) :: t =>
    if id < k then (id, v) :: (k, w) :: t
    else if id = k then (id, v) :: t
    else (k, w) :: assign id v t

/-- The removal `m.erase(id)`: the entry of `id` goes, the others stay (keys
are unique in a map, see `Ordered`). -/
def erase (id : Int) (m : HotkeyMap) : HotkeyMap :=
  m.filter (fun e => decide (e.1 ≠ id))

/-- The representation invariant of a `std::map`: keys strictly increasing,
hence unique. -/
def Ordered (m : HotkeyMap) : Prop :=
  (m.map Prod.fst).Pairwise (fun a b => a < b)

end HotkeyMap

/-! ## Messages, Win32 calls and the state -/

/-- A message for the receiver window: the `msg`, `wParam`, `lParam` arguments
that `DispatchMessage` hands to the window procedure. -/
structure Msg where
  message : Nat
  wParam : Nat
  lParam : Nat
  deriving DecidableEq, Repr

/-- The Win32 calls the hotkey subsystem issues. -/
inductive OSCall where
  | GetModuleHandle
  | RegisterClassExW
  | GetLastError
  | CreateWindowExW
  | DestroyWindow (hwnd : Nat)
  | UnregisterClassW
  | RegisterHotKey (hwnd : Nat) (id : Int) (modifiers : Nat) (vk : Nat)
  | UnregisterHotKey (hwnd : Nat) (id : Int)
  | PeekMessage (hwnd : Nat)
  | TranslateMessage (m : Msg)
  | DispatchMessage (m : Msg)
  | DefWindowProc (m : Msg)
  deriving DecidableEq, Repr

/-- The globals of `mouse_controller.cpp` (`hotkeyStates`, `messageWindow` with
`0` for `nullptr`, `isInitialized`) together with the part of the Win32 world
the code acts on: `bindings` are the ids bound by `RegisterHotKey` to the
receiver window, `queue` holds the messages posted to the receiver and not
yet retrieved, `calls` logs every Win32 call issued, oldest first. -/
structure State where
  hotkeyStates : HotkeyMap
  messageWindow : Nat
  isInitialized : Bool
  bindings : List Int
  queue : List Msg
  calls : List OSCall
  deriving DecidableEq, Repr

/-- The state at program start: the initial values of the globals, no
receiver, no binding, nothing posted, no call issued. -/
def State.initial : State :=
  { hotkeyStates := [], messageWindow := 0, isInitialized := false,
    bindings := [], queue := [], calls := [] }

/-- The subsystem is Ready: the guard `isInitialized && messageWindow` that
`registerHotkey`, `unregisterHotkey` and `checkHotkeyPressed` test. -/
def State.Ready (s : State) : Prop :=
  s.isInitialized = true ∧ s.messageWindow ≠ 0

instance (s : State) : Decidable s.Ready := by
  unfold State.Ready; infer_instance

/-- Record a Win32 call in the log. -/
def State.log (s : State) (c : OSCall) : State :=
  { s with calls := s.calls ++ [c] }

/-! ## The functions of `mouse_controller.cpp` -/

/-- The window procedure `HotkeyWndProc(hwnd, msg, wParam, lParam)`: on
`WM_HOTKEY` it executes `hotkeyStates[id] = true` and returns 0; any other
message goes to `DefWindowProc`, whose result (taken as 0) no caller reads. -/
def HotkeyWndProc (m : Msg) (s : State) : Int × State :=
  if m.message = WM_HOTKEY then
    let id := castInt m.wParam
    (0, { s with hotkeyStates := HotkeyMap.assign id true s.hotkeyStates })
  else
    (0, s.log (OSCall.DefWindowProc m))

/-- The function `initHotkeySystem()`.  `atom` is the result of
`RegisterClassExW` (0 on failure), `err` what `GetLastError` then reports,
`hwnd` the result of `CreateWindowExW` (0 for a null handle). -/
def initHotkeySystem (atom err hwnd : Nat) (s : State) : Bool × State :=
  if s.isInitialized then (true, s)
  else
    let s1 := (s.log OSCall.GetModuleHandle).log OSCall.RegisterClassExW
    if atom = 0 ∧ err ≠ ERROR_CLASS_ALREADY_EXISTS then
      (false, s1.log OSCall.GetLastError)
    else
      let s2 := if atom = 0 then s1.log OSCall.GetLastError else s1
      let s3 := { (s2.log OSCall.GetModuleHandle).log OSCall.CreateWindowExW with
                    messageWindow := hwnd }
      if hwnd = 0 then (false, s3)
      else (true, { s3 with isInitialized := true })

/-- The function `cleanupHotkeySystem()`.  `DestroyWindow` takes the
receiver's hot-key bindings and its pending messages with it. -/
def cleanupHotkeySystem (s : State) : State :=
  if !s.isInitialized then s
  else
    let s1 :=
      if s.messageWindow ≠ 0 then
        { s.log (OSCall.DestroyWindow s.messageWindow) with
            messageWindow := 0, bindings := [], queue := [] }
      else s
    { (s1.log OSCall.GetModuleHandle).log OSCall.UnregisterClassW with
        isInitialized := false }

/-- The function `registerHotkey(id, vkCode)`.  `result` is the `BOOL` that
`RegisterHotKey` returns; when it is nonzero the binding exists from then on. -/
def registerHotkey (id : Int) (vkCode : Nat) (result : Int) (s : State) : Bool × State :=
  if !s.isInitialized ∨ s.messageWindow = 0 then (false, s)
  else
    let s1 := s.log (OSCall.RegisterHotKey s.messageWindow id HOTKEY_MODIFIERS vkCode)
    if result ≠ 0 then
      (true, { s1 with
                bindings := id :: s1.bindings.filter (fun j => decide (j ≠ id)),
                hotkeyStates := HotkeyMap.assign id false s1.hotkeyStates })
    else (false, s1)

/-- The function `unregisterHotkey(id)`. -/
def unregisterHotkey (id : Int) (s : State) : State :=
  if !s.isInitialized ∨ s.messageWindow = 0 then s
  else
    let s1 := s.log (OSCall.UnregisterHotKey s.messageWindow id)
    { s1 with
        bindings := s1.bindings.filter (fun j => decide (j ≠ id)),
        hotkeyStates := HotkeyMap.erase id s1.hotkeyStates }

/-- The loop `while (PeekMessage(&msg, messageWindow, 0, 0, PM_REMOVE))
{ TranslateMessage(&msg); DispatchMessage(&msg); }` run on the pending
messages `q`: each one is removed from the queue and handed to the window
procedure; the loop ends with the `PeekMessage` that finds nothing.
`TranslateMessage` and `DefWindowProc` are taken to post nothing to the
receiver, so the loop is a recursion on the pending messages. -/
def drainLoop : List Msg → State → State
  | [], s => { s.log (OSCall.PeekMessage s.messageWindow) with queue := [] }
  | m :: rest, s =>
    let s1 := { s.log (OSCall.PeekMessage s.messageWindow) with queue := rest }
    let s2 := (s1.log (OSCall.TranslateMessage m)).log (OSCall.DispatchMessage m)
    drainLoop rest (HotkeyWndProc m s2).2

/-- The function `checkHotkeyPressed(id)`. -/
def checkHotkeyPressed (id : Int) (s : State) : Bool × State :=
  if !s.isInitialized ∨ s.messageWindow = 0 then (false, s)
  else
    let s1 := drainLoop s.queue s
    match HotkeyMap.find id s1.hotkeyStates with
    | some true => (true, { s1 with hotkeyStates := HotkeyMap.assign id false s1.hotkeyStates })
    | _ => (false, s1)

/-! ## Events from outside and runs -/

/-- A message is posted to the receiver's queue (by the system when a bound
hot key is pressed, or by any `PostMessage`).  Without a receiver there is no
queue to post to. -/
def postMessage (m : Msg) (s : State) : State :=
  if s.messageWindow = 0 then s else { s with queue := s.queue ++ [m] }

/-- The message `m` is an activation notification for `id`: a `WM_HOTKEY`
whose `wParam` the window procedure reads as `id`. -/
def Msg.NotifiesFor (m : Msg) (id : Int) : Prop :=
  m.message = WM_HOTKEY ∧ castInt m.wParam = id

instance (m : Msg) (id : Int) : Decidable (m.NotifiesFor id) := by
  unfold Msg.NotifiesFor; infer_instance

/-- The activation notification the system posts for hot key `id`
(`wParam` carries the id). -/
def hotkeyMsg (id : Nat) : Msg :=
  { message := WM_HOTKEY, wParam := id, lParam := 0 }

/-- What can happen to the subsystem: a call of one of its five entry points
(with the results of the Win32 calls it makes) or the arrival of a message. -/
inductive Action where
  | init (atom err hwnd : Nat)
  | cleanup
  | register (id : Int) (vkCode : Nat) (result : Int)
  | unregister (id : Int)
  | check (id : Int)
  | post (m : Msg)
  deriving DecidableEq, Repr

/-- One action applied to a state. -/
def step (s : State) : Action → State
  | Action.init atom err hwnd => (initHotkeySystem atom err hwnd s).2
  | Action.cleanup => cleanupHotkeySystem s
  | Action.register id vk result => (registerHotkey id vk result s).2
  | Action.unregister id => unregisterHotkey id s
  | Action.check id => (checkHotkeyPressed id s).2
  | Action.post m => postMessage m s

/-- A sequence of actions applied to a state, first to last. -/
def run (acts : List Action) (s : State) : State :=
  acts.foldl step s

/-- The states the subsystem can be in: those a run from the initial state
ends in. -/
def Reachable (s : State) : Prop :=
  ∃ acts : List Action, run acts State.initial = s

/-- A registration of `id` is active: the receiver exists and `id` is bound
to it. -/
def State.ActiveBinding (s : State) (id : Int) : Prop :=
  s.messageWindow ≠ 0 ∧ id ∈ s.bindings

instance (s : State) (id : Int) : Decidable (s.ActiveBinding id) := by
  unfold State.ActiveBinding; infer_instance

/-- The pending messages of the queue that are activation notifications for `id`. -/
def State.pendingFor (s : State) (id : Int) : List Msg :=
  s.queue.filter (fun m => decide (m.NotifiesFor id))

/-- Number of `CreateWindowExW` calls in a log. -/
def windowsCreated (cs : List OSCall) : Nat :=
  cs.count OSCall.CreateWindowExW

/-! ## Lemmas on the map -/

theorem HotkeyMap.find_assign (j id : Int) (v : Bool) (m : HotkeyMap) :
    HotkeyMap.find j (HotkeyMap.assign id v m) = if j = id then some v else HotkeyMap.find j m := by
  induction m with
  | nil => simp [HotkeyMap.assign, HotkeyMap.find]
  | cons e t ih =>
    obtain ⟨k, w⟩ := e
    unfold HotkeyMap.assign
    by_cases h1 : id < k
    · simp [h1, HotkeyMap.find]
    · by_cases h2 : id = k
      · subst h2
        by_cases h3 : j = id <;> simp [HotkeyMap.find, h3]
      · simp only [h1, h2, if_false, HotkeyMap.find, ih]
        by_cases h3 : j = k
        · have h4 : ¬ j = id := fun h => h2 (h ▸ h3)
          simp [h3, h4]
          rw [if_neg (fun h => h2 h.symm)]
        · simp [h3]

theorem HotkeyMap.assign_assign (id : Int) (v w : Bool) (m : HotkeyMap) :
    HotkeyMap.assign id v (HotkeyMap.assign id w m) = HotkeyMap.assign id v m := by
  induction m with
  | nil => simp [HotkeyMap.assign]
  | cons e t ih =>
    obtain ⟨k, u⟩ := e
    by_cases h1 : id < k
    · simp [HotkeyMap.assign, h1]
    · by_cases h2 : id = k
      · subst h2
        simp [HotkeyMap.assign]
      · simp [HotkeyMap.assign, h1, h2, ih]

theorem HotkeyMap.find_erase (j id : Int) (m : HotkeyMap) :
    HotkeyMap.find j (HotkeyMap.erase id m) = if j = id then none else HotkeyMap.find j m := by
  induction m with
  | nil => simp [HotkeyMap.erase, HotkeyMap.find]
  | cons e t ih =>
    obtain ⟨k, u⟩ := e
    have step : HotkeyMap.erase id ((k, u) :: t)
        = if k = id then HotkeyMap.erase id t else (k, u) :: HotkeyMap.erase id t := by
      by_cases h : k = id <;> simp [HotkeyMap.erase, List.filter_cons, h]
    rw [step]
    by_cases h1 : k = id
    · subst h1
      rw [if_pos rfl, ih]
      by_cases h2 : j = k <;> simp [h2, HotkeyMap.find]
    · rw [if_neg h1]
      by_cases h2 : j = id
      · subst h2
        have h3 : ¬ j = k := fun h => h1 h.symm
        have ih2 : HotkeyMap.find j (HotkeyMap.erase j t) = none := by simpa using ih
        simp [HotkeyMap.find, h3, ih2]
      · simp [HotkeyMap.find, ih, h2]

theorem HotkeyMap.assign_keys (id k : Int) (v : Bool) (m : HotkeyMap)
    (h : k ∈ (HotkeyMap.assign id v m).map Prod.fst) : k = id ∨ k ∈ m.map Prod.fst := by
  induction m with
  | nil =>
    simp [HotkeyMap.assign] at h
    exact Or.inl h
  | cons e t ih =>
    obtain ⟨k0, w⟩ := e
    unfold HotkeyMap.assign at h
    by_cases h1 : id < k0
    · simp only [h1, if_true, List.map_cons, List.mem_cons] at h
      rcases h with h | h | h
      · exact Or.inl h
      · exact Or.inr (by simp [h])
      · exact Or.inr (by simp only [List.map_cons, List.mem_cons]; exact Or.inr h)
    · by_cases h2 : id = k0
      · subst h2
        simp only [h1, if_false, if_true, List.map_cons, List.mem_cons] at h
        rcases h with h | h
        · exact Or.inl h
        · exact Or.inr (by simp only [List.map_cons, List.mem_cons]; exact Or.inr h)
      · simp only [h1, h2, if_false, List.map_cons, List.mem_cons] at h
        rcases h with h | h
        · exact Or.inr (by simp [h])
        · rcases ih h with h3 | h3
          · exact Or.inl h3
          · exact Or.inr (by simp only [List.map_cons, List.mem_cons]; exact Or.inr h3)

/-- The assignment `m[id] = v` keeps the keys strictly increasing. -/
theorem HotkeyMap.assign_ordered (id : Int) (v : Bool) (m : HotkeyMap)
    (h : HotkeyMap.Ordered m) : HotkeyMap.Ordered (HotkeyMap.assign id v m) := by
  unfold HotkeyMap.Ordered at h ⊢
  induction m with
  | nil => simp [HotkeyMap.assign]
  | cons e t ih =>
    obtain ⟨k0, w⟩ := e
    simp only [List.map_cons, List.pairwise_cons] at h
    obtain ⟨hlt, ht⟩ := h
    unfold HotkeyMap.assign
    by_cases h1 : id < k0
    · simp only [h1, if_true, List.map_cons, List.pairwise_cons, List.mem_cons]
      refine ⟨?_, hlt, ht⟩
      intro b hb
      rcases hb with hb | hb
      · rw [hb]; exact h1
      · exact lt_trans h1 (hlt b hb)
    · by_cases h2 : id = k0
      · subst h2
        simp only [h1, if_false, if_true, List.map_cons, List.pairwise_cons]
        exact ⟨hlt, ht⟩
      · simp only [h1, h2, if_false, List.map_cons, List.pairwise_cons]
        refine ⟨?_, ih ht⟩
        intro b hb
        rcases HotkeyMap.assign_keys id b v t hb with hb | hb
        · rw [hb]
          omega
        · exact hlt b hb

/-- The removal `m.erase(id)` keeps the keys strictly increasing. -/
theorem HotkeyMap.erase_ordered (id : Int) (m : HotkeyMap)
    (h : HotkeyMap.Ordered m) : HotkeyMap.Ordered (HotkeyMap.erase id m) := by
  unfold HotkeyMap.Ordered HotkeyMap.erase at *
  exact List.Pairwise.sublist (List.Sublist.map Prod.fst (List.filter_sublist m)) h

/-! ## Lemmas on the window procedure and the drain loop -/

theorem HotkeyWndProc_find (j : Int) (m : Msg) (s : State) :
    HotkeyMap.find j (HotkeyWndProc m s).2.hotkeyStates
      = if m.NotifiesFor j then some true else HotkeyMap.find j s.hotkeyStates := by
  unfold HotkeyWndProc Msg.NotifiesFor
  by_cases h : m.message = WM_HOTKEY
  · simp only [h, if_true, true_and, HotkeyMap.find_assign]
    by_cases h2 : j = castInt m.wParam
    · rw [if_pos h2, if_pos h2.symm]
    · rw [if_neg h2, if_neg (fun h3 => h2 h3.symm)]
  · simp [h, State.log]

theorem HotkeyWndProc_frame (m : Msg) (s : State) :
    (HotkeyWndProc m s).2.isInitialized = s.isInitialized ∧
    (HotkeyWndProc m s).2.messageWindow = s.messageWindow ∧
    (HotkeyWndProc m s).2.bindings = s.bindings ∧
    (HotkeyWndProc m s).2.queue = s.queue := by
  unfold HotkeyWndProc
  by_cases h : m.message = WM_HOTKEY <;> simp [h, State.log]

theorem drainLoop_frame (q : List Msg) (s : State) :
    (drainLoop q s).isInitialized = s.isInitialized ∧
    (drainLoop q s).messageWindow = s.messageWindow ∧
    (drainLoop q s).bindings = s.bindings ∧
    (drainLoop q s).queue = [] := by
  induction q generalizing s with
  | nil => simp [drainLoop, State.log]
  | cons m rest ih =>
    simp only [drainLoop]
    obtain ⟨h1, h2, h3, h4⟩ := ih (HotkeyWndProc m
      (({ s.log (OSCall.PeekMessage s.messageWindow) with queue := rest }.log
        (OSCall.TranslateMessage m)).log (OSCall.DispatchMessage m))).2
    obtain ⟨f1, f2, f3, _⟩ := HotkeyWndProc_frame m
      (({ s.log (OSCall.PeekMessage s.messageWindow) with queue := rest }.log
        (OSCall.TranslateMessage m)).log (OSCall.DispatchMessage m))
    refine ⟨?_, ?_, ?_, h4⟩
    · rw [h1, f1]; rfl
    · rw [h2, f2]; rfl
    · rw [h3, f3]; rfl

theorem drainLoop_find (j : Int) (q : List Msg) (s : State) :
    HotkeyMap.find j (drainLoop q s).hotkeyStates
      = if q.filter (fun m => decide (m.NotifiesFor j)) = [] then HotkeyMap.find j s.hotkeyStates
        else some true := by
  induction q generalizing s with
  | nil => simp [drainLoop, State.log]
  | cons m rest ih =>
    simp only [drainLoop]
    rw [ih, HotkeyWndProc_find]
    by_cases hm : m.NotifiesFor j
    · simp [List.filter_cons, hm]
    · simp [List.filter_cons, hm, State.log]

/-! ## Lemmas on `checkHotkeyPressed` -/

theorem checkHotkeyPressed_not_ready (id : Int) (s : State) (h : ¬ s.Ready) :
    checkHotkeyPressed id s = (false, s) := by
  unfold checkHotkeyPressed
  have : (!s.isInitialized) = true ∨ s.messageWindow = 0 := by
    unfold State.Ready at h
    by_cases h1 : s.isInitialized = true
    · right
      by_contra h2
      exact h ⟨h1, h2⟩
    · left
      simpa using h1
  rw [if_pos this]

theorem checkHotkeyPressed_ready (id : Int) (s : State) (h : s.Ready) :
    checkHotkeyPressed id s =
      match HotkeyMap.find id (drainLoop s.queue s).hotkeyStates with
      | some true => (true, { drainLoop s.queue s with
          hotkeyStates := HotkeyMap.assign id false (drainLoop s.queue s).hotkeyStates })
      | _ => (false, drainLoop s.queue s) := by
  unfold checkHotkeyPressed
  have : ¬ ((!s.isInitialized) = true ∨ s.messageWindow = 0) := by
    obtain ⟨h1, h2⟩ := h
    simp [h1, h2]
  rw [if_neg this]

/-- In a Ready state the poll answers true exactly when, after the pending
messages are dispatched, the entry of `id` is present with `pressed = true`. -/
theorem checkHotkeyPressed_result (id : Int) (s : State) (h : s.Ready) :
    (checkHotkeyPressed id s).1
      = decide (HotkeyMap.find id (drainLoop s.queue s).hotkeyStates = some true) := by
  rw [checkHotkeyPressed_ready id s h]
  rcases hf : HotkeyMap.find id (drainLoop s.queue s).hotkeyStates with _ | b
  · simp
  · cases b <;> simp

/-- The poll keeps the lifecycle flag, the receiver and the bindings, and in
a Ready state leaves nothing pending. -/
theorem checkHotkeyPressed_frame (id : Int) (s : State) :
    (checkHotkeyPressed id s).2.isInitialized = s.isInitialized ∧
    (checkHotkeyPressed id s).2.messageWindow = s.messageWindow ∧
    (checkHotkeyPressed id s).2.bindings = s.bindings ∧
    (s.Ready → (checkHotkeyPressed id s).2.queue = []) := by
  by_cases h : s.Ready
  · rw [checkHotkeyPressed_ready id s h]
    obtain ⟨h1, h2, h3, h4⟩ := drainLoop_frame s.queue s
    rcases hf : HotkeyMap.find id (drainLoop s.queue s).hotkeyStates with _ | b
    · exact ⟨h1, h2, h3, fun _ => h4⟩
    · cases b
      · exact ⟨h1, h2, h3, fun _ => h4⟩
      · exact ⟨h1, h2, h3, fun _ => h4⟩
  · rw [checkHotkeyPressed_not_ready id s h]
    exact ⟨rfl, rfl, rfl, fun h2 => absurd h2 h⟩

/-- The map after a poll of `id` in a Ready state: the entry of `id`, when the
drain leaves one, has `pressed = false`; every other id reads as the drain
left it. -/
theorem checkHotkeyPressed_find (j id : Int) (s : State) (h : s.Ready) :
    HotkeyMap.find j (checkHotkeyPressed id s).2.hotkeyStates
      = if j = id then (HotkeyMap.find id (drainLoop s.queue s).hotkeyStates).map (fun _ => false)
        else HotkeyMap.find j (drainLoop s.queue s).hotkeyStates := by
  rw [checkHotkeyPressed_ready id s h]
  rcases hf : HotkeyMap.find id (drainLoop s.queue s).hotkeyStates with _ | b
  · by_cases hj : j = id
    · subst hj; simp [hf]
    · simp [hj]
  · cases b
    · by_cases hj : j = id
      · subst hj; simp [hf]
      · simp [hj]
    · by_cases hj : j = id
      · subst hj; simp [HotkeyMap.find_assign]
      · simp [hj, HotkeyMap.find_assign]

/-! ## Lemmas on `registerHotkey` and on posting -/

theorem not_ready_guard (s : State) :
    ((!s.isInitialized) = true ∨ s.messageWindow = 0) ↔ ¬ s.Ready := by
  unfold State.Ready
  cases s.isInitialized <;> simp

theorem registerHotkey_not_ready (id : Int) (vkCode : Nat) (result : Int) (s : State)
    (h : ¬ s.Ready) : registerHotkey id vkCode result s = (false, s) := by
  unfold registerHotkey
  rw [if_pos ((not_ready_guard s).mpr h)]

theorem registerHotkey_accepted (id : Int) (vkCode : Nat) (result : Int) (s : State)
    (h : s.Ready) (hr : result ≠ 0) :
    registerHotkey id vkCode result s =
      (true, { s with
        calls := s.calls ++ [OSCall.RegisterHotKey s.messageWindow id HOTKEY_MODIFIERS vkCode],
        bindings := id :: s.bindings.filter (fun j => decide (j ≠ id)),
        hotkeyStates := HotkeyMap.assign id false s.hotkeyStates }) := by
  unfold registerHotkey
  rw [if_neg (fun hg => (not_ready_guard s).mp hg h), if_pos hr]
  rfl

theorem registerHotkey_rejected (id : Int) (vkCode : Nat) (s : State) (h : s.Ready) :
    registerHotkey id vkCode 0 s =
      (false, s.log (OSCall.RegisterHotKey s.messageWindow id HOTKEY_MODIFIERS vkCode)) := by
  unfold registerHotkey
  rw [if_neg (fun hg => (not_ready_guard s).mp hg h)]
  simp

/-- The call answers true exactly when the state is Ready and `RegisterHotKey`
returned nonzero. -/
theorem registerHotkey_true_iff (id : Int) (vkCode : Nat) (result : Int) (s : State) :
    (registerHotkey id vkCode result s).1 = true ↔ s.Ready ∧ result ≠ 0 := by
  by_cases h : s.Ready
  · by_cases hr : result = 0
    · subst hr
      rw [registerHotkey_rejected id vkCode s h]
      simp
    · rw [registerHotkey_accepted id vkCode result s h hr]
      simp [h, hr]
  · rw [registerHotkey_not_ready id vkCode result s h]
    simp [h]

theorem postMessage_ready (m : Msg) (s : State) (h : s.Ready) :
    postMessage m s = { s with queue := s.queue ++ [m] } := by
  unfold postMessage
  rw [if_neg h.2]

/-- In a Ready state, a poll of `id` right after a notification for `id` was
posted answers true and leaves the queue empty, and the poll after it
answers false. -/
theorem poll_after_post (id : Int) (m : Msg) (t : State) (h : t.Ready)
    (hm : m.NotifiesFor id) :
    (checkHotkeyPressed id (postMessage m t)).1 = true ∧
    (checkHotkeyPressed id (postMessage m t)).2.queue = [] ∧
    (checkHotkeyPressed id (checkHotkeyPressed id (postMessage m t)).2).1 = false := by
  have hp : (postMessage m t).Ready := by
    rw [postMessage_ready m t h]; exact h
  obtain ⟨f1, f2, _, f4⟩ := checkHotkeyPressed_frame id (postMessage m t)
  have hq := f4 hp
  have hr2 : (checkHotkeyPressed id (postMessage m t)).2.Ready :=
    ⟨f1.trans hp.1, fun h0 => hp.2 (f2.symm.trans h0)⟩
  have hd : HotkeyMap.find id (drainLoop (postMessage m t).queue (postMessage m t)).hotkeyStates
      = some true := by
    rw [drainLoop_find, postMessage_ready m t h]
    simp [List.filter_append, List.filter_cons, hm]
  refine ⟨?_, hq, ?_⟩
  · rw [checkHotkeyPressed_result id _ hp, hd]
    simp
  · rw [checkHotkeyPressed_result id _ hr2, hq]
    have : HotkeyMap.find id (drainLoop []
        (checkHotkeyPressed id (postMessage m t)).2).hotkeyStates = some false := by
      rw [drainLoop_find, checkHotkeyPressed_find id id _ hp, hd]
      simp
    rw [this]
    simp

/-- Two polls of `id` in a row in a Ready state: the second answers false. -/
theorem poll_twice_false (id : Int) (t : State) (h : t.Ready) :
    (checkHotkeyPressed id (checkHotkeyPressed id t).2).1 = false := by
  obtain ⟨f1, f2, _, f4⟩ := checkHotkeyPressed_frame id t
  have hr2 : (checkHotkeyPressed id t).2.Ready :=
    ⟨f1.trans h.1, fun h0 => h.2 (f2.symm.trans h0)⟩
  rw [checkHotkeyPressed_result id _ hr2, f4 h, drainLoop_find,
    checkHotkeyPressed_find id id _ h]
  rcases HotkeyMap.find id (drainLoop t.queue t).hotkeyStates with _ | b <;> simp

theorem checkHotkeyPressed_keeps_ready (id : Int) (t : State) (h : t.Ready) :
    (checkHotkeyPressed id t).2.Ready := by
  obtain ⟨f1, f2, _, _⟩ := checkHotkeyPressed_frame id t
  exact ⟨f1.trans h.1, fun h0 => h.2 (f2.symm.trans h0)⟩

theorem HotkeyWndProc_notify (id : Int) (m : Msg) (s : State) (hm : m.NotifiesFor id) :
    HotkeyWndProc m s
      = (0, { s with hotkeyStates := HotkeyMap.assign id true s.hotkeyStates }) := by
  unfold HotkeyWndProc
  rw [if_pos hm.1]
  simp only [hm.2]

/-- Handling one or more notifications for `id` one after the other gives the
state that `hotkeyStates[id] = true` gives. -/
theorem handle_notifications (id : Int) (ms : List Msg) (s : State) (hne : ms ≠ [])
    (hall : ∀ m ∈ ms, m.NotifiesFor id) :
    ms.foldl (fun t m => (HotkeyWndProc m t).2) s
      = { s with hotkeyStates := HotkeyMap.assign id true s.hotkeyStates } := by
  induction ms generalizing s with
  | nil => exact absurd rfl hne
  | cons m rest ih =>
    have hm : m.NotifiesFor id := hall m (List.mem_cons_self m rest)
    rw [List.foldl_cons, HotkeyWndProc_notify id m s hm]
    by_cases hrest : rest = []
    · subst hrest
      rfl
    · rw [ih _ hrest (fun x hx => hall x (List.mem_cons_of_mem m hx))]
      simp [HotkeyMap.assign_assign]

theorem initHotkeySystem_initialized (atom err hwnd : Nat) (s : State)
    (h : s.isInitialized = true) : initHotkeySystem atom err hwnd s = (true, s) := by
  unfold initHotkeySystem
  rw [if_pos h]

/-- What `initHotkeySystem` does from an Uninitialized state, by the results
of the two Win32 calls it branches on. -/
theorem initHotkeySystem_uninitialized (atom err hwnd : Nat) (s : State)
    (h : s.isInitialized = false) :
    ((initHotkeySystem atom err hwnd s).1 = true ↔
      (atom ≠ 0 ∨ (atom = 0 ∧ err = ERROR_CLASS_ALREADY_EXISTS)) ∧ hwnd ≠ 0) ∧
    (initHotkeySystem atom err hwnd s).2.hotkeyStates = s.hotkeyStates ∧
    ((initHotkeySystem atom err hwnd s).1 = true →
      (initHotkeySystem atom err hwnd s).2.isInitialized = true ∧
      (initHotkeySystem atom err hwnd s).2.messageWindow = hwnd ∧
      windowsCreated (initHotkeySystem atom err hwnd s).2.calls
        = windowsCreated s.calls + 1) ∧
    ((initHotkeySystem atom err hwnd s).1 = false →
      (initHotkeySystem atom err hwnd s).2.isInitialized = false ∧
      ((initHotkeySystem atom err hwnd s).2.messageWindow = s.messageWindow ∨
       (initHotkeySystem atom err hwnd s).2.messageWindow = 0)) := by
  unfold initHotkeySystem
  rw [h]
  by_cases ha : atom = 0
  · by_cases he : err = ERROR_CLASS_ALREADY_EXISTS
    · by_cases hw : hwnd = 0
      · simp [ha, he, hw, State.log, h]
      · simp [ha, he, hw, State.log, windowsCreated, List.count_append]
    · simp [ha, he, State.log, h]
  · by_cases hw : hwnd = 0
    · simp [ha, hw, State.log, h]
    · simp [ha, hw, State.log, windowsCreated, List.count_append]

theorem cleanupHotkeySystem_uninitialized (s : State) (h : s.isInitialized = false) :
    cleanupHotkeySystem s = s := by
  unfold cleanupHotkeySystem
  simp [h]

theorem cleanupHotkeySystem_flag (s : State) :
    (cleanupHotkeySystem s).isInitialized = false := by
  unfold cleanupHotkeySystem
  cases h : s.isInitialized <;> simp [h]

/-! ## Reachable states -/

theorem run_append_one (acts : List Action) (a : Action) (s : State) :
    run (acts ++ [a]) s = step (run acts s) a := by
  unfold run
  rw [List.foldl_append]
  rfl

/-- Induction over the reachable states: a property of the initial state that
every action preserves holds of every reachable state. -/
theorem Reachable.induct (P : State → Prop) (h0 : P State.initial)
    (hstep : ∀ (t : State) (a : Action), P t → P (step t a)) (s : State)
    (h : Reachable s) : P s := by
  obtain ⟨acts, rfl⟩ := h
  induction acts using List.reverseRecOn with
  | nil => exact h0
  | append_singleton l a ih =>
    rw [run_append_one]
    exact hstep _ a ih

/-- In every reachable state the receiver handle is null while the subsystem
is Uninitialized. -/
theorem reachable_uninitialized_null (s : State) (h : Reachable s)
    (hu : s.isInitialized = false) : s.messageWindow = 0 := by
  revert hu
  refine Reachable.induct (fun t => t.isInitialized = false → t.messageWindow = 0)
    (fun _ => rfl) ?_ s h
  intro t a ih
  cases a with
  | init atom err hwnd =>
    intro hu
    simp only [step] at hu ⊢
    cases hi : t.isInitialized
    · obtain ⟨hiff, _, _, hfalse⟩ := initHotkeySystem_uninitialized atom err hwnd t hi
      cases hres : (initHotkeySystem atom err hwnd t).1
      · rcases (hfalse hres).2 with h1 | h1
        · rw [h1]; exact ih hi
        · exact h1
      · have := ((initHotkeySystem_uninitialized atom err hwnd t hi).2.2.1 hres).1
        rw [hu] at this
        exact Bool.noConfusion this
    · rw [initHotkeySystem_initialized atom err hwnd t hi] at hu
      rw [hi] at hu
      exact Bool.noConfusion hu
  | cleanup =>
    intro _
    simp only [step]
    unfold cleanupHotkeySystem
    cases hi : t.isInitialized
    · simpa using ih hi
    · by_cases hw : t.messageWindow = 0 <;> simp [hw, State.log]
  | register id vk result =>
    intro hu
    simp only [step] at hu ⊢
    have hn : ¬ t.Ready ∨ t.Ready := (em _).symm
    rcases hn with hn | hn
    · rw [registerHotkey_not_ready id vk result t hn] at hu ⊢
      exact ih hu
    · by_cases hr : result = 0
      · subst hr
        rw [registerHotkey_rejected id vk t hn] at hu
        exact absurd (hn.1.symm.trans hu) (by simp)
      · rw [registerHotkey_accepted id vk result t hn hr] at hu
        exact absurd (hn.1.symm.trans hu) (by simp)
  | unregister id =>
    intro hu
    simp only [step] at hu ⊢
    unfold unregisterHotkey at hu ⊢
    by_cases hg : (!t.isInitialized) = true ∨ t.messageWindow = 0
    · rw [if_pos hg] at hu ⊢
      exact ih hu
    · rw [if_neg hg] at hu ⊢
      exact ih hu
  | check id =>
    intro hu
    simp only [step] at hu ⊢
    obtain ⟨f1, f2, _, _⟩ := checkHotkeyPressed_frame id t
    rw [f2]
    exact ih (f1.symm.trans hu)
  | post m =>
    intro hu
    simp only [step] at hu ⊢
    unfold postMessage at hu ⊢
    by_cases hw : t.messageWindow = 0
    · rw [if_pos hw]; exact hw
    · rw [if_neg hw] at hu ⊢
      exact ih hu

/-- In every reachable state each id bound to the receiver has an entry in
the map. -/
theorem reachable_binding_has_entry (s : State) (h : Reachable s) (id : Int)
    (hb : s.ActiveBinding id) : HotkeyMap.find id s.hotkeyStates ≠ none := by
  have key : ∀ j ∈ s.bindings, HotkeyMap.find j s.hotkeyStates ≠ none := by
    refine Reachable.induct
      (fun t => ∀ j ∈ t.bindings, HotkeyMap.find j t.hotkeyStates ≠ none) ?_ ?_ s h
    · intro j hj
      simp [State.initial] at hj
    · intro t a ih
      cases a with
      | init atom err hwnd =>
        simp only [step]
        unfold initHotkeySystem
        by_cases hi : t.isInitialized = true
        · simpa [hi] using ih
        · by_cases ha : atom = 0 <;> by_cases he : err = ERROR_CLASS_ALREADY_EXISTS <;>
            by_cases hw : hwnd = 0 <;> simpa [hi, ha, he, hw, State.log] using ih
      | cleanup =>
        simp only [step]
        unfold cleanupHotkeySystem
        by_cases hi : t.isInitialized = true
        · by_cases hw : t.messageWindow = 0
          · simpa [hi, hw, State.log] using ih
          · simp [hi, hw, State.log]
        · simpa [hi] using ih
      | register r vk result =>
        simp only [step]
        by_cases hn : t.Ready
        · by_cases hr : result = 0
          · subst hr
            rw [registerHotkey_rejected r vk t hn]
            exact ih
          · rw [registerHotkey_accepted r vk result t hn hr]
            intro j hj
            simp only [HotkeyMap.find_assign]
            by_cases hjr : j = r
            · simp [hjr]
            · rw [if_neg hjr]
              simp only [List.mem_cons, List.mem_filter] at hj
              rcases hj with hj | hj
              · exact absurd hj hjr
              · exact ih j hj.1
        · rw [registerHotkey_not_ready r vk result t hn]
          exact ih
      | unregister r =>
        simp only [step]
        unfold unregisterHotkey
        by_cases hg : (!t.isInitialized) = true ∨ t.messageWindow = 0
        · rw [if_pos hg]
          exact ih
        · rw [if_neg hg]
          intro j hj
          simp only [State.log, List.mem_filter, decide_eq_true_eq] at hj
          simp only [State.log, HotkeyMap.find_erase, if_neg hj.2]
          exact ih j hj.1
      | check r =>
        simp only [step]
        intro j hj
        obtain ⟨_, _, f3, _⟩ := checkHotkeyPressed_frame r t
        rw [f3] at hj
        have hprev := ih j hj
        by_cases hn : t.Ready
        · rw [checkHotkeyPressed_find j r t hn]
          have hd : HotkeyMap.find j (drainLoop t.queue t).hotkeyStates ≠ none := by
            rw [drainLoop_find]
            split
            · exact hprev
            · simp
          by_cases hjr : j = r
          · subst hjr
            rw [if_pos rfl]
            rcases hf : HotkeyMap.find j (drainLoop t.queue t).hotkeyStates with _ | b
            · exact absurd hf hd
            · simp
          · rw [if_neg hjr]
            exact hd
        · rw [checkHotkeyPressed_not_ready r t hn]
          exact hprev
      | post m =>
        simp only [step]
        unfold postMessage
        by_cases hw : t.messageWindow = 0
        · rw [if_pos hw]
          exact ih
        · rw [if_neg hw]
          exact ih
  exact key id hb.2

theorem drainLoop_ordered (q : List Msg) (s : State)
    (h : HotkeyMap.Ordered s.hotkeyStates) :
    HotkeyMap.Ordered (drainLoop q s).hotkeyStates := by
  induction q generalizing s with
  | nil => exact h
  | cons m rest ih =>
    simp only [drainLoop]
    apply ih
    unfold HotkeyWndProc
    by_cases hm : m.message = WM_HOTKEY
    · simp only [hm, if_true]
      exact HotkeyMap.assign_ordered _ _ _ h
    · simp only [hm, if_false]
      exact h

/-- In every reachable state the map has strictly increasing keys, as a
`std::map` has. -/
theorem reachable_map_ordered (s : State) (h : Reachable s) :
    HotkeyMap.Ordered s.hotkeyStates := by
  refine Reachable.induct (fun t => HotkeyMap.Ordered t.hotkeyStates) ?_ ?_ s h
  · simp [State.initial, HotkeyMap.Ordered]
  · intro t a ih
    cases a with
    | init atom err hwnd =>
      simp only [step]
      cases hi : t.isInitialized
      · rw [(initHotkeySystem_uninitialized atom err hwnd t hi).2.1]
        exact ih
      · rw [initHotkeySystem_initialized atom err hwnd t hi]
        exact ih
    | cleanup =>
      simp only [step]
      unfold cleanupHotkeySystem
      cases hi : t.isInitialized
      · simpa using ih
      · by_cases hw : t.messageWindow = 0 <;> simpa [hw, State.log] using ih
    | register r vk result =>
      simp only [step]
      by_cases hn : t.Ready
      · by_cases hr : result = 0
        · subst hr
          rw [registerHotkey_rejected r vk t hn]
          exact ih
        · rw [registerHotkey_accepted r vk result t hn hr]
          exact HotkeyMap.assign_ordered _ _ _ ih
      · rw [registerHotkey_not_ready r vk result t hn]
        exact ih
    | unregister r =>
      simp only [step]
      unfold unregisterHotkey
      by_cases hg : (!t.isInitialized) = true ∨ t.messageWindow = 0
      · rw [if_pos hg]
        exact ih
      · rw [if_neg hg]
        exact HotkeyMap.erase_ordered _ _ ih
    | check r =>
      simp only [step]
      by_cases hn : t.Ready
      · rw [checkHotkeyPressed_ready r t hn]
        have hd := drainLoop_ordered t.queue t ih
        rcases hf : HotkeyMap.find r (drainLoop t.queue t).hotkeyStates with _ | b
        · exact hd
        · cases b
          · exact hd
          · exact HotkeyMap.assign_ordered _ _ _ hd
      · rw [checkHotkeyPressed_not_ready r t hn]
        exact ih
    | post m =>
      simp only [step]
      unfold postMessage
      by_cases hw : t.messageWindow = 0
      · rw [if_pos hw]
        exact ih
      · rw [if_neg hw]
        exact ih

/-! ## Two behaviours of the code the claims C1 to C3 meet -/

/-- From every state `cleanupHotkeySystem` returns the map as it found it. -/
theorem cleanupHotkeySystem_keeps_map (s : State) :
    (cleanupHotkeySystem s).hotkeyStates = s.hotkeyStates := by
  unfold cleanupHotkeySystem
  cases hi : s.isInitialized
  · simp
  · by_cases hw : s.messageWindow = 0 <;> simp [hw, State.log]

/-- In every Ready state, a notification for `id` handled after
`unregisterHotkey(id)` makes the next `checkHotkeyPressed(id)` answer true. -/
theorem notification_after_unregister_polls_true (s : State) (id : Int) (m : Msg)
    (h : s.Ready) (hm : m.NotifiesFor id) :
    HotkeyMap.find id (unregisterHotkey id s).hotkeyStates = none ∧
    (checkHotkeyPressed id (HotkeyWndProc m (unregisterHotkey id s)).2).1 = true := by
  have hu : unregisterHotkey id s =
      { s.log (OSCall.UnregisterHotKey s.messageWindow id) with
        bindings := s.bindings.filter (fun j => decide (j ≠ id)),
        hotkeyStates := HotkeyMap.erase id s.hotkeyStates } := by
    unfold unregisterHotkey
    rw [if_neg (fun hg => (not_ready_guard s).mp hg h)]
    rfl
  have hr : (HotkeyWndProc m (unregisterHotkey id s)).2.Ready := by
    rw [HotkeyWndProc_notify id m _ hm, hu]
    exact h
  refine ⟨?_, ?_⟩
  · rw [hu]
    simp [HotkeyMap.find_erase]
  · rw [checkHotkeyPressed_result id _ hr, drainLoop_find, HotkeyWndProc_find, if_pos hm]
    split <;> simp

/-! ## Claims -/

/-- C4. In a Ready state, after a successful `registerHotkey(id, K)` with no
notification for `id` pending, `checkHotkeyPressed(id)` answers false; once
an activation notification for `id` has been posted to the receiver's queue
(right after the registration, or after that first poll), the next
`checkHotkeyPressed(id)` empties the queue and answers true, and the poll
that follows it answers false. -/
theorem C4_registration_round_trip (s : State) (id : Int) (vkCode : Nat) (result : Int)
    (m : Msg) (hready : s.Ready)
    (hok : (registerHotkey id vkCode result s).1 = true)
    (hnone : s.pendingFor id = []) (hm : m.NotifiesFor id) :
    (checkHotkeyPressed id (registerHotkey id vkCode result s).2).1 = false ∧
    ((checkHotkeyPressed id (postMessage m (registerHotkey id vkCode result s).2)).1 = true ∧
     (checkHotkeyPressed id (postMessage m (registerHotkey id vkCode result s).2)).2.queue = [] ∧
     (checkHotkeyPressed id
        (checkHotkeyPressed id (postMessage m (registerHotkey id vkCode result s).2)).2).1
        = false) ∧
    ((checkHotkeyPressed id (postMessage m
        (checkHotkeyPressed id (registerHotkey id vkCode result s).2).2)).1 = true ∧
     (checkHotkeyPressed id (postMessage m
        (checkHotkeyPressed id (registerHotkey id vkCode result s).2).2)).2.queue = [] ∧
     (checkHotkeyPressed id
        (checkHotkeyPressed id (postMessage m
          (checkHotkeyPressed id (registerHotkey id vkCode result s).2).2)).2).1 = false) := by
  have hr : result ≠ 0 := ((registerHotkey_true_iff id vkCode result s).mp hok).2
  have hs1 : (registerHotkey id vkCode result s).2.Ready := by
    rw [registerHotkey_accepted id vkCode result s hready hr]; exact hready
  have hs1' : (checkHotkeyPressed id (registerHotkey id vkCode result s).2).2.Ready := by
    obtain ⟨f1, f2, _, _⟩ := checkHotkeyPressed_frame id (registerHotkey id vkCode result s).2
    exact ⟨f1.trans hs1.1, fun h0 => hs1.2 (f2.symm.trans h0)⟩
  refine ⟨?_, poll_after_post id m _ hs1 hm, poll_after_post id m _ hs1' hm⟩
  rw [checkHotkeyPressed_result id _ hs1, drainLoop_find]
  rw [registerHotkey_accepted id vkCode result s hready hr]
  unfold State.pendingFor at hnone
  simp [hnone, HotkeyMap.find_assign]

/-- C4, at `init; register(42, VK_F1); notify 42; poll; poll`. -/
theorem C4_registration_round_trip_witness :
    (initHotkeySystem 1 0 1 State.initial).2.Ready ∧
    (checkHotkeyPressed 42 (postMessage (hotkeyMsg 42)
      (registerHotkey 42 0x70 1 (initHotkeySystem 1 0 1 State.initial).2).2)).1 = true ∧
    (checkHotkeyPressed 42 (checkHotkeyPressed 42 (postMessage (hotkeyMsg 42)
      (registerHotkey 42 0x70 1 (initHotkeySystem 1 0 1 State.initial).2).2)).2).1 = false :=
  have h := C4_registration_round_trip (initHotkeySystem 1 0 1 State.initial).2 42 0x70 1
    (hotkeyMsg 42) (by decide) (by decide) (by decide) (by decide)
  ⟨by decide, h.2.1.1, h.2.1.2.2⟩

/-- C5. `registerHotkey(id, vkCode)` answers true exactly when the subsystem
is Ready and `RegisterHotKey` accepts the binding.  When it answers true the
map is the previous one with `id` set to `pressed = false`: `id` reads false,
every other id reads as before, and the lifecycle flag and the receiver are
kept.  When it answers false the lifecycle flag, the receiver handle and the
map are unchanged. -/
theorem C5_registerHotkey_contract (id : Int) (vkCode : Nat) (result : Int) (s : State) :
    ((registerHotkey id vkCode result s).1 = true ↔ s.Ready ∧ result ≠ 0) ∧
    ((registerHotkey id vkCode result s).1 = true →
      (registerHotkey id vkCode result s).2.hotkeyStates
        = HotkeyMap.assign id false s.hotkeyStates ∧
      HotkeyMap.find id (registerHotkey id vkCode result s).2.hotkeyStates = some false ∧
      (∀ j : Int, j ≠ id →
        HotkeyMap.find j (registerHotkey id vkCode result s).2.hotkeyStates
          = HotkeyMap.find j s.hotkeyStates) ∧
      (registerHotkey id vkCode result s).2.isInitialized = s.isInitialized ∧
      (registerHotkey id vkCode result s).2.messageWindow = s.messageWindow) ∧
    ((registerHotkey id vkCode result s).1 = false →
      (registerHotkey id vkCode result s).2.isInitialized = s.isInitialized ∧
      (registerHotkey id vkCode result s).2.messageWindow = s.messageWindow ∧
      (registerHotkey id vkCode result s).2.hotkeyStates = s.hotkeyStates) := by
  refine ⟨registerHotkey_true_iff id vkCode result s, ?_, ?_⟩
  · intro hok
    obtain ⟨hready, hr⟩ := (registerHotkey_true_iff id vkCode result s).mp hok
    rw [registerHotkey_accepted id vkCode result s hready hr]
    refine ⟨rfl, ?_, ?_, rfl, rfl⟩
    · simp [HotkeyMap.find_assign]
    · intro j hj
      simp [HotkeyMap.find_assign, hj]
  · intro hfalse
    by_cases hready : s.Ready
    · by_cases hr : result = 0
      · subst hr
        rw [registerHotkey_rejected id vkCode s hready]
        exact ⟨rfl, rfl, rfl⟩
      · rw [registerHotkey_accepted id vkCode result s hready hr] at hfalse
        simp at hfalse
    · rw [registerHotkey_not_ready id vkCode result s hready]
      exact ⟨rfl, rfl, rfl⟩

/-- C5, at a Ready state holding an entry for 7: registering 42 succeeds and
keeps the entry of 7; a rejected registration of 42 changes no global. -/
theorem C5_registerHotkey_contract_witness :
    (registerHotkey 42 0x70 1
      (registerHotkey 7 0x71 1 (initHotkeySystem 1 0 1 State.initial).2).2).1 = true ∧
    HotkeyMap.find 7 (registerHotkey 42 0x70 1
      (registerHotkey 7 0x71 1 (initHotkeySystem 1 0 1 State.initial).2).2).2.hotkeyStates
      = some false ∧
    (registerHotkey 42 0x70 0
      (registerHotkey 7 0x71 1 (initHotkeySystem 1 0 1 State.initial).2).2).2.hotkeyStates
      = [(7, false)] :=
  have h1 := C5_registerHotkey_contract 42 0x70 1
    (registerHotkey 7 0x71 1 (initHotkeySystem 1 0 1 State.initial).2).2
  have h0 := C5_registerHotkey_contract 42 0x70 0
    (registerHotkey 7 0x71 1 (initHotkeySystem 1 0 1 State.initial).2).2
  ⟨h1.1.mpr (by decide),
   ((h1.2.1 (h1.1.mpr (by decide))).2.2.1 7 (by decide)).trans (by decide),
   ((h0.2.2 (by decide)).2.2).trans (by decide)⟩

/-- C6. In an Uninitialized state (`isInitialized` is false), for every id
and key code, `registerHotkey` answers false, `checkHotkeyPressed` answers
false and `unregisterHotkey` returns, and each of the three leaves the whole
state as it was: lifecycle flag, receiver handle, map, bindings, queue and
the log of Win32 calls, so no bind, unbind or message drain is issued. -/
theorem C6_uninitialized_noop (s : State) (id : Int) (vkCode : Nat) (result : Int)
    (h : s.isInitialized = false) :
    registerHotkey id vkCode result s = (false, s) ∧
    checkHotkeyPressed id s = (false, s) ∧
    unregisterHotkey id s = s := by
  have hn : ¬ s.Ready := fun hr => by
    have := hr.1
    rw [h] at this
    exact Bool.noConfusion this
  refine ⟨registerHotkey_not_ready id vkCode result s hn,
    checkHotkeyPressed_not_ready id s hn, ?_⟩
  unfold unregisterHotkey
  rw [if_pos ((not_ready_guard s).mpr hn)]

/-- C6, at the state left by `init; register(42); notify 42; cleanup`. -/
theorem C6_uninitialized_noop_witness :
    (cleanupHotkeySystem (postMessage (hotkeyMsg 42)
      (registerHotkey 42 0x70 1 (initHotkeySystem 1 0 1 State.initial).2).2)).isInitialized
      = false ∧
    (checkHotkeyPressed 42 (cleanupHotkeySystem (postMessage (hotkeyMsg 42)
      (registerHotkey 42 0x70 1 (initHotkeySystem 1 0 1 State.initial).2).2))).1 = false ∧
    (registerHotkey 42 0x70 1 (cleanupHotkeySystem (postMessage (hotkeyMsg 42)
      (registerHotkey 42 0x70 1 (initHotkeySystem 1 0 1 State.initial).2).2))).1 = false :=
  have h := C6_uninitialized_noop (cleanupHotkeySystem (postMessage (hotkeyMsg 42)
      (registerHotkey 42 0x70 1 (initHotkeySystem 1 0 1 State.initial).2).2)) 42 0x70 1
      (by decide)
  ⟨by decide, congrArg Prod.fst h.2.1, congrArg Prod.fst h.1⟩

/-- C7. `initHotkeySystem` and `cleanupHotkeySystem` are idempotent.  Called
with `isInitialized` set, `initHotkeySystem` answers true and leaves the whole
state, the log of Win32 calls included, as it was: no class registration and
no window creation.  So when a first call answers true, a second call right
after it answers true and changes nothing, and from an Uninitialized state
the two calls together create exactly one receiver.  Called in an
Uninitialized state, `cleanupHotkeySystem` leaves the whole state as it was,
and `cleanup; cleanup` equals `cleanup` from every state. -/
theorem C7_init_cleanup_idempotent (s : State) (atom err hwnd atom2 err2 hwnd2 : Nat) :
    (s.isInitialized = true → initHotkeySystem atom err hwnd s = (true, s)) ∧
    ((initHotkeySystem atom err hwnd s).1 = true →
      initHotkeySystem atom2 err2 hwnd2 (initHotkeySystem atom err hwnd s).2
        = (true, (initHotkeySystem atom err hwnd s).2) ∧
      (s.isInitialized = false →
        windowsCreated
          (initHotkeySystem atom2 err2 hwnd2 (initHotkeySystem atom err hwnd s).2).2.calls
          = windowsCreated s.calls + 1)) ∧
    (s.isInitialized = false → cleanupHotkeySystem s = s) ∧
    cleanupHotkeySystem (cleanupHotkeySystem s) = cleanupHotkeySystem s := by
  refine ⟨initHotkeySystem_initialized atom err hwnd s, ?_,
    cleanupHotkeySystem_uninitialized s,
    cleanupHotkeySystem_uninitialized _ (cleanupHotkeySystem_flag s)⟩
  intro hok
  have hinit : (initHotkeySystem atom err hwnd s).2.isInitialized = true := by
    cases h : s.isInitialized
    · exact ((initHotkeySystem_uninitialized atom err hwnd s h).2.2.1 hok).1
    · rw [initHotkeySystem_initialized atom err hwnd s h]
      exact h
  have h2 := initHotkeySystem_initialized atom2 err2 hwnd2 _ hinit
  refine ⟨h2, fun hun => ?_⟩
  rw [h2]
  exact ((initHotkeySystem_uninitialized atom err hwnd s hun).2.2.1 hok).2.2

/-- C7, at the initial state: `init; init` answers true, true with one
`CreateWindowExW` call, and `cleanup` of the initial state changes nothing. -/
theorem C7_init_cleanup_idempotent_witness :
    (initHotkeySystem 1 0 1 State.initial).1 = true ∧
    (initHotkeySystem 1 0 2 (initHotkeySystem 1 0 1 State.initial).2).1 = true ∧
    windowsCreated
      (initHotkeySystem 1 0 2 (initHotkeySystem 1 0 1 State.initial).2).2.calls = 1 ∧
    cleanupHotkeySystem State.initial = State.initial :=
  have h := C7_init_cleanup_idempotent State.initial 1 0 1 1 0 2
  ⟨by decide, congrArg Prod.fst (h.2.1 (by decide)).1,
   ((h.2.1 (by decide)).2 (by decide)).trans (by decide), h.2.2.1 (by decide)⟩

/-- C8. Coalescing.  In a Ready state with an entry for `id`, let `n ≥ 1`
activation notifications for `id` be handled by the window procedure with no
poll in between.  The state they leave is the state one notification leaves,
the next `checkHotkeyPressed(id)` answers true, and the poll after it
answers false. -/
theorem C8_coalescing (s : State) (id : Int) (n : Nat) (ms : List Msg) (m0 : Msg)
    (hready : s.Ready) (_hreg : HotkeyMap.find id s.hotkeyStates ≠ none)
    (hn : 1 ≤ n) (hlen : ms.length = n)
    (hall : ∀ m ∈ ms, m.NotifiesFor id) (hm0 : m0.NotifiesFor id) :
    ms.foldl (fun t m => (HotkeyWndProc m t).2) s = (HotkeyWndProc m0 s).2 ∧
    (checkHotkeyPressed id (ms.foldl (fun t m => (HotkeyWndProc m t).2) s)).1 = true ∧
    (checkHotkeyPressed id
      (checkHotkeyPressed id (ms.foldl (fun t m => (HotkeyWndProc m t).2) s)).2).1
      = false := by
  have hne : ms ≠ [] := by
    intro h0
    rw [h0] at hlen
    simp at hlen
    omega
  have hfold := handle_notifications id ms s hne hall
  have hr : (ms.foldl (fun t m => (HotkeyWndProc m t).2) s).Ready := by
    rw [hfold]; exact hready
  refine ⟨?_, ?_, poll_twice_false id _ hr⟩
  · rw [hfold, HotkeyWndProc_notify id m0 s hm0]
  · rw [checkHotkeyPressed_result id _ hr, drainLoop_find, hfold]
    simp only [HotkeyMap.find_assign, if_true]
    split <;> simp

/-- C8, at `init; register(42)` followed by three notifications for 42. -/
theorem C8_coalescing_witness :
    (checkHotkeyPressed 42
      ([hotkeyMsg 42, hotkeyMsg 42, hotkeyMsg 42].foldl (fun t m => (HotkeyWndProc m t).2)
        (registerHotkey 42 0x70 1 (initHotkeySystem 1 0 1 State.initial).2).2)).1 = true ∧
    (checkHotkeyPressed 42 (checkHotkeyPressed 42
      ([hotkeyMsg 42, hotkeyMsg 42, hotkeyMsg 42].foldl (fun t m => (HotkeyWndProc m t).2)
        (registerHotkey 42 0x70 1 (initHotkeySystem 1 0 1 State.initial).2).2)).2).1
      = false :=
  (C8_coalescing (registerHotkey 42 0x70 1 (initHotkeySystem 1 0 1 State.initial).2).2 42 3
    [hotkeyMsg 42, hotkeyMsg 42, hotkeyMsg 42] (hotkeyMsg 42)
    (by decide) (by decide) (by decide) (by decide) (by decide) (by decide)).2

/-- C9, as stated, fails: with ids 1 and 2 registered and a notification for
2 pending, `checkHotkeyPressed(1)` dispatches it and turns the entry of 2
from `pressed = false` to `pressed = true`. -/
theorem C9_poll_dispatches_pending_of_other_id :
    HotkeyMap.find 2 (postMessage (hotkeyMsg 2) (registerHotkey 2 0x71 1
      (registerHotkey 1 0x70 1 (initHotkeySystem 1 0 1 State.initial).2).2).2).hotkeyStates
      = some false ∧
    HotkeyMap.find 2 (checkHotkeyPressed 1 (postMessage (hotkeyMsg 2) (registerHotkey 2 0x71 1
      (registerHotkey 1 0x70 1
        (initHotkeySystem 1 0 1 State.initial).2).2).2)).2.hotkeyStates
      = some true := by
  decide

/-- C9, amended.  For distinct ids `A` and `B`: handling an activation
notification for `A` leaves the entry of `B` (presence and pressed value)
unchanged, and so does `checkHotkeyPressed(A)` when no notification for `B`
is pending in the receiver's queue.  Hence, from a Ready state with nothing
pending for `B`, after registering `A` and `B` and posting a notification for
`A` only, `checkHotkeyPressed(A)` answers true and `checkHotkeyPressed(B)`
answers false, whichever of the two polls comes first. -/
theorem C9_isolation (s : State) (A B : Int) (vkA vkB : Nat) (rA rB : Int) (mA : Msg)
    (hAB : A ≠ B) (hmA : mA.NotifiesFor A) (hnoB : s.pendingFor B = []) :
    HotkeyMap.find B (HotkeyWndProc mA s).2.hotkeyStates = HotkeyMap.find B s.hotkeyStates ∧
    HotkeyMap.find B (checkHotkeyPressed A s).2.hotkeyStates
      = HotkeyMap.find B s.hotkeyStates ∧
    (s.Ready → (registerHotkey A vkA rA s).1 = true →
      (registerHotkey B vkB rB (registerHotkey A vkA rA s).2).1 = true →
      (checkHotkeyPressed A (postMessage mA
        (registerHotkey B vkB rB (registerHotkey A vkA rA s).2).2)).1 = true ∧
      (checkHotkeyPressed B (checkHotkeyPressed A (postMessage mA
        (registerHotkey B vkB rB (registerHotkey A vkA rA s).2).2)).2).1 = false ∧
      (checkHotkeyPressed B (postMessage mA
        (registerHotkey B vkB rB (registerHotkey A vkA rA s).2).2)).1 = false ∧
      (checkHotkeyPressed A (checkHotkeyPressed B (postMessage mA
        (registerHotkey B vkB rB (registerHotkey A vkA rA s).2).2)).2).1 = true) := by
  have hBA : ¬ B = A := fun h => hAB h.symm
  have hnot : ¬ mA.NotifiesFor B := fun h => hAB (hmA.2.symm.trans h.2)
  unfold State.pendingFor at hnoB
  refine ⟨?_, ?_, ?_⟩
  · rw [HotkeyWndProc_find, if_neg hnot]
  · by_cases hready : s.Ready
    · rw [checkHotkeyPressed_find B A s hready, if_neg hBA, drainLoop_find, if_pos hnoB]
    · rw [checkHotkeyPressed_not_ready A s hready]
  · intro hready hokA hokB
    have hrA : rA ≠ 0 := ((registerHotkey_true_iff A vkA rA s).mp hokA).2
    have hsA : (registerHotkey A vkA rA s).2.Ready := by
      rw [registerHotkey_accepted A vkA rA s hready hrA]; exact hready
    have hrB : rB ≠ 0 := ((registerHotkey_true_iff B vkB rB _).mp hokB).2
    have hsB : (registerHotkey B vkB rB (registerHotkey A vkA rA s).2).2.Ready := by
      rw [registerHotkey_accepted B vkB rB _ hsA hrB]; exact hsA
    have ht : (postMessage mA
        (registerHotkey B vkB rB (registerHotkey A vkA rA s).2).2).Ready := by
      rw [postMessage_ready mA _ hsB]; exact hsB
    -- the queue and the map of the state the polls start from
    have hqueue : (postMessage mA
        (registerHotkey B vkB rB (registerHotkey A vkA rA s).2).2).queue = s.queue ++ [mA] := by
      rw [postMessage_ready mA _ hsB, registerHotkey_accepted B vkB rB _ hsA hrB,
        registerHotkey_accepted A vkA rA s hready hrA]
    have hmapB : HotkeyMap.find B (postMessage mA
        (registerHotkey B vkB rB (registerHotkey A vkA rA s).2).2).hotkeyStates
        = some false := by
      rw [postMessage_ready mA _ hsB, registerHotkey_accepted B vkB rB _ hsA hrB]
      simp [HotkeyMap.find_assign]
    have hpendB : (s.queue ++ [mA]).filter (fun m => decide (m.NotifiesFor B)) = [] := by
      simp [List.filter_append, List.filter_cons, hnoB, hnot]
    have hpendA : (s.queue ++ [mA]).filter (fun m => decide (m.NotifiesFor A)) ≠ [] := by
      simp [List.filter_append, List.filter_cons, hmA]
    -- what the drain leaves for A and for B
    have hdA : HotkeyMap.find A (drainLoop (postMessage mA
        (registerHotkey B vkB rB (registerHotkey A vkA rA s).2).2).queue (postMessage mA
        (registerHotkey B vkB rB (registerHotkey A vkA rA s).2).2)).hotkeyStates
        = some true := by
      rw [drainLoop_find, hqueue, if_neg hpendA]
    have hdB : HotkeyMap.find B (drainLoop (postMessage mA
        (registerHotkey B vkB rB (registerHotkey A vkA rA s).2).2).queue (postMessage mA
        (registerHotkey B vkB rB (registerHotkey A vkA rA s).2).2)).hotkeyStates
        = some false := by
      rw [drainLoop_find, hqueue, if_pos hpendB, hmapB]
    refine ⟨?_, ?_, ?_, ?_⟩
    · rw [checkHotkeyPressed_result A _ ht, hdA]
      simp
    · have hr2 := checkHotkeyPressed_keeps_ready A _ ht
      rw [checkHotkeyPressed_result B _ hr2, (checkHotkeyPressed_frame A _).2.2.2 ht,
        drainLoop_find, checkHotkeyPressed_find B A _ ht, if_neg hBA, hdB]
      simp
    · rw [checkHotkeyPressed_result B _ ht, hdB]
      simp
    · have hr2 := checkHotkeyPressed_keeps_ready B _ ht
      rw [checkHotkeyPressed_result A _ hr2, (checkHotkeyPressed_frame B _).2.2.2 ht,
        drainLoop_find, checkHotkeyPressed_find A B _ ht, if_neg hAB, hdA]
      simp

/-- C9 amended, at `init; register(1); register(2); notify 1`. -/
theorem C9_isolation_witness :
    (checkHotkeyPressed 2 (postMessage (hotkeyMsg 1) (registerHotkey 2 0x71 1
      (registerHotkey 1 0x70 1 (initHotkeySystem 1 0 1 State.initial).2).2).2)).1 = false ∧
    (checkHotkeyPressed 1 (checkHotkeyPressed 2 (postMessage (hotkeyMsg 1)
      (registerHotkey 2 0x71 1 (registerHotkey 1 0x70 1
        (initHotkeySystem 1 0 1 State.initial).2).2).2)).2).1 = true :=
  have h := (C9_isolation (initHotkeySystem 1 0 1 State.initial).2 1 2 0x70 0x71 1 1
    (hotkeyMsg 1) (by decide) (by decide) (by decide)).2.2
    (by decide) (by decide) (by decide)
  ⟨h.2.2.1, h.2.2.2⟩

/-- C10. From a reachable Uninitialized state, `initHotkeySystem` answers
true exactly when `RegisterClassExW` succeeds or fails with
`ERROR_CLASS_ALREADY_EXISTS`, and `CreateWindowExW` then returns a non-null
handle.  When it answers false the subsystem is still Uninitialized, the
receiver handle is null and the map, the bindings and the queue are as
before, and a later `initHotkeySystem` whose Win32 calls succeed answers
true. -/
theorem C10_init_failure_keeps_uninitialized (s : State)
    (atom err hwnd atom2 err2 hwnd2 : Nat)
    (hreach : Reachable s) (hun : s.isInitialized = false) :
    ((initHotkeySystem atom err hwnd s).1 = true ↔
      (atom ≠ 0 ∨ (atom = 0 ∧ err = ERROR_CLASS_ALREADY_EXISTS)) ∧ hwnd ≠ 0) ∧
    ((initHotkeySystem atom err hwnd s).1 = false →
      (initHotkeySystem atom err hwnd s).2.isInitialized = false ∧
      (initHotkeySystem atom err hwnd s).2.messageWindow = 0 ∧
      (initHotkeySystem atom err hwnd s).2.hotkeyStates = s.hotkeyStates ∧
      (initHotkeySystem atom err hwnd s).2.bindings = s.bindings ∧
      (initHotkeySystem atom err hwnd s).2.queue = s.queue ∧
      ((atom2 ≠ 0 ∨ (atom2 = 0 ∧ err2 = ERROR_CLASS_ALREADY_EXISTS)) → hwnd2 ≠ 0 →
        (initHotkeySystem atom2 err2 hwnd2 (initHotkeySystem atom err hwnd s).2).1 = true)) := by
  have hnull := reachable_uninitialized_null s hreach hun
  obtain ⟨hiff, hmap, _, hfalse⟩ := initHotkeySystem_uninitialized atom err hwnd s hun
  refine ⟨hiff, fun hres => ?_⟩
  obtain ⟨hflag, hwin⟩ := hfalse hres
  have hwin0 : (initHotkeySystem atom err hwnd s).2.messageWindow = 0 := by
    rcases hwin with h1 | h1
    · rw [h1]; exact hnull
    · exact h1
  refine ⟨hflag, hwin0, hmap, ?_, ?_, fun hclass hhandle => ?_⟩
  · unfold initHotkeySystem
    rw [hun]
    by_cases ha : atom = 0 <;> by_cases he : err = ERROR_CLASS_ALREADY_EXISTS <;>
      by_cases hw : hwnd = 0 <;> simp [ha, he, hw, State.log]
  · unfold initHotkeySystem
    rw [hun]
    by_cases ha : atom = 0 <;> by_cases he : err = ERROR_CLASS_ALREADY_EXISTS <;>
      by_cases hw : hwnd = 0 <;> simp [ha, he, hw, State.log]
  · exact (initHotkeySystem_uninitialized atom2 err2 hwnd2 _ hflag).1.mpr ⟨hclass, hhandle⟩

/-- C10, at the state left by `init; register(42); cleanup`: an
`initHotkeySystem` whose `CreateWindowExW` returns null answers false, and
the retry answers true. -/
theorem C10_init_failure_keeps_uninitialized_witness :
    (initHotkeySystem 0 1410 0 (run [Action.init 1 0 1, Action.register 42 0x70 1,
      Action.cleanup] State.initial)).1 = false ∧
    (initHotkeySystem 0 1410 0 (run [Action.init 1 0 1, Action.register 42 0x70 1,
      Action.cleanup] State.initial)).2.messageWindow = 0 ∧
    (initHotkeySystem 0 1410 5 (initHotkeySystem 0 1410 0 (run [Action.init 1 0 1,
      Action.register 42 0x70 1, Action.cleanup] State.initial)).2).1 = true :=
  have h := (C10_init_failure_keeps_uninitialized (run [Action.init 1 0 1,
      Action.register 42 0x70 1, Action.cleanup] State.initial) 0 1410 0 0 1410 5
      ⟨_, rfl⟩ (by decide)).2 (by decide)
  ⟨by decide, h.2.1, h.2.2.2.2.2 (by decide) (by decide)⟩

/-- C1, the code at `init; register(42, VK_F1); unregister(42)` followed by a
`WM_HOTKEY` with `wParam = 42`: `unregisterHotkey` removes the entry of 42,
the window procedure puts one back with `pressed = true`, and the next
`checkHotkeyPressed(42)` answers true.  The same happens when the
notification was posted before `unregisterHotkey` and is dispatched by the
poll. -/
theorem C1_stale_notification_recreates_entry :
    HotkeyMap.find 42 (unregisterHotkey 42 (registerHotkey 42 0x70 1
      (initHotkeySystem 1 0 1 State.initial).2).2).hotkeyStates = none ∧
    HotkeyMap.find 42 (HotkeyWndProc (hotkeyMsg 42) (unregisterHotkey 42
      (registerHotkey 42 0x70 1
        (initHotkeySystem 1 0 1 State.initial).2).2)).2.hotkeyStates = some true ∧
    (checkHotkeyPressed 42 (HotkeyWndProc (hotkeyMsg 42) (unregisterHotkey 42
      (registerHotkey 42 0x70 1 (initHotkeySystem 1 0 1 State.initial).2).2)).2).1 = true ∧
    (checkHotkeyPressed 42 (unregisterHotkey 42 (postMessage (hotkeyMsg 42)
      (registerHotkey 42 0x70 1 (initHotkeySystem 1 0 1 State.initial).2).2))).1 = true := by
  decide

/-- C2, the code at `init; register(7); notify 7; poll(8); cleanup; init;
poll(7)`: the poll of 8 dispatches the notification, `cleanupHotkeySystem`
leaves the entry of 7 with `pressed = true` in the map, and after the second
`initHotkeySystem` the poll of 7 answers true. -/
theorem C2_cleanup_keeps_entries :
    (cleanupHotkeySystem (checkHotkeyPressed 8 (postMessage (hotkeyMsg 7)
      (registerHotkey 7 0x70 1 (initHotkeySystem 1 0 1 State.initial).2).2)).2).hotkeyStates
      = [(7, true)] ∧
    (initHotkeySystem 1 0 1 (cleanupHotkeySystem (checkHotkeyPressed 8
      (postMessage (hotkeyMsg 7) (registerHotkey 7 0x70 1
        (initHotkeySystem 1 0 1 State.initial).2).2)).2)).1 = true ∧
    (checkHotkeyPressed 7 (initHotkeySystem 1 0 1 (cleanupHotkeySystem (checkHotkeyPressed 8
      (postMessage (hotkeyMsg 7) (registerHotkey 7 0x70 1
        (initHotkeySystem 1 0 1 State.initial).2).2)).2)).2).1 = true := by
  decide

/-- C3, the code at two runs from the initial state.  After `init;
register(5); cleanup` the map has an entry for 5 and no registration is
active.  After `init; register(5); notify 5; unregister(5); poll(5)` the map
again has an entry for 5 and no registration is active. -/
theorem C3_entry_without_registration :
    Reachable (run [Action.init 1 0 1, Action.register 5 0x70 1, Action.cleanup]
      State.initial) ∧
    HotkeyMap.find 5 (run [Action.init 1 0 1, Action.register 5 0x70 1, Action.cleanup]
      State.initial).hotkeyStates = some false ∧
    ¬ (run [Action.init 1 0 1, Action.register 5 0x70 1, Action.cleanup]
      State.initial).ActiveBinding 5 ∧
    HotkeyMap.find 5 (run [Action.init 1 0 1, Action.register 5 0x70 1,
      Action.post (hotkeyMsg 5), Action.unregister 5, Action.check 5]
      State.initial).hotkeyStates = some false ∧
    ¬ (run [Action.init 1 0 1, Action.register 5 0x70 1,
      Action.post (hotkeyMsg 5), Action.unregister 5, Action.check 5]
      State.initial).ActiveBinding 5 :=
  ⟨⟨_, rfl⟩, by decide, by decide, by decide, by decide⟩

end ClickMate
